import Mathlib

/-!
Verification of the samsahai staging controller (internal/staging) against its
specification. The Go sources are shallowly embedded: durations are `Int`
nanoseconds (like Go `time.Duration`), timestamps are `Int` nanoseconds,
fallible store operations are made explicit, and the Kubernetes environment
(resource lists, registry contents, runner behaviour) is passed as explicit
data. Every definition mirrors the corresponding Go function of
`internal/staging/controller.go` or `internal/staging/start_testrunner.go`
unless its doc comment says it is modelled from the spec (for repository code
outside the provided sources, e.g. the api/v1 condition helpers).
-/

namespace Samsahai

/-- One nanosecond, the unit of Go `time.Duration`. -/
def nanosecond : Int := 1

/-- One second in nanoseconds. -/
def second : Int := 1000000000

/-- One minute in nanoseconds. -/
def minute : Int := 60 * second

/-- Go `DefaultCleanupTimeout = 15 * time.Minute` (controller.go line 38). -/
def DefaultCleanupTimeout : Int := 15 * minute

/-- Go `testTimeout = 1800 * time.Second` (start_testrunner.go). -/
def testTimeout : Int := 1800 * second

/-- Go `testPolling = 5 * time.Second` (start_testrunner.go). -/
def testPolling : Int := 5 * second

/-- Queue types (`s2hv1.QueueType`): the four spec types. -/
inductive QueueType
  | upgrade
  | promoteToActive
  | demoteFromActive
  | pullRequest
deriving DecidableEq, Repr

/-- Queue states (`s2hv1.QueueState`); `emptyState` stands for the Go empty
string state, dispatched together with `Waiting`. -/
inductive QueueState
  | emptyState
  | waiting
  | cleaningBefore
  | detectingImageMissing
  | creating
  | testing
  | collecting
  | cleaningAfter
  | deleting
  | cancelling
  | finished
deriving DecidableEq, Repr

/-- Go `corev1.ConditionStatus`: True / False / Unknown. -/
inductive ConditionStatus
  | conditionTrue
  | conditionFalse
  | conditionUnknown
deriving DecidableEq, Repr

/-- The queue condition types used by the staging controller. -/
inductive QueueConditionType
  | queueCleaningBeforeStarted
  | queueCleanedBefore
  | queueCleaningAfterStarted
  | queueCleanedAfter
  | queueTestTriggered
  | queueTested
  | queueGitlabTestResult
  | queueTeamcityTestResult
deriving DecidableEq, Repr

/-- A queue condition record `(type, status, message)`. -/
structure QueueCondition where
  condType : QueueConditionType
  status : ConditionStatus
  message : String
deriving DecidableEq, Repr

/-- Go `Queue.Status`: the fields of `s2hv1.QueueStatus` the controller drives. -/
structure QueueStatus where
  state : QueueState
  noOfProcessed : Nat
  conditions : List QueueCondition
  startTestingTime : Option Int
  queueHistoryName : String
  deployEngine : String
deriving DecidableEq, Repr

/-- A queue item (`s2hv1.Queue`); `nspace` is the Kubernetes namespace. -/
structure Queue where
  name : String
  nspace : String
  qtype : QueueType
  skipTestRunner : Bool
  status : QueueStatus
deriving DecidableEq, Repr

/-- Modelled from the spec: the idempotent condition setter of the api/v1
`QueueStatus.SetCondition` (not among the provided sources). Conditions are
keyed by condition name; setting an already-equal `(status, message)` is a
no-op, an existing entry of the same type is replaced, otherwise the entry is
appended. -/
def setCondition (conds : List QueueCondition) (t : QueueConditionType)
    (s : ConditionStatus) (m : String) : List QueueCondition :=
  if QueueCondition.mk t s m ∈ conds then conds
  else if conds.any fun c => c.condType == t then
    conds.map fun c => if c.condType == t then ⟨t, s, m⟩ else c
  else conds ++ [⟨t, s, m⟩]

/-- Modelled from the spec: `QueueStatus.IsConditionTrue` — whether the
condition of the given type is present with status True. -/
def isConditionTrue (conds : List QueueCondition) (t : QueueConditionType) : Bool :=
  conds.any fun c => c.condType == t && c.status == ConditionStatus.conditionTrue

/-- Modelled from the spec: `Queue.SetState` sets the in-memory state only. -/
def setState (q : Queue) (s : QueueState) : Queue :=
  { q with status := { q.status with state := s } }

/-- Modelled from the spec: `updateQueueWithState` sets the state and persists
the item to the store ("persist-then-advance"); persistence is recorded by
each caller in an explicit flag. -/
def updateQueueWithState (q : Queue) (s : QueueState) : Queue :=
  setState q s

/-- Go `IsCleanupTimeout` (controller.go lines 546-558): nil start means no
timeout; a zero timeout is replaced by `DefaultCleanupTimeout`; then the
strict comparison `now.Sub(start.Time) > timeout` is evaluated. -/
def IsCleanupTimeout (now : Int) (start : Option Int) (timeout : Int) : Bool :=
  match start with
  | none => false
  | some s =>
    let timeout := if timeout = 0 then DefaultCleanupTimeout else timeout
    decide (now - s > timeout)

/-- The forced-cleanup condition as the specification words it (§4.3 step 2):
`forceClean = now - cleaningStartTime > max(cleanupTimeout, DefaultCleanupTimeout)`.
Kept separate from `IsCleanupTimeout` so the two can be compared. -/
def cleanupTimeoutSpec (now s timeout : Int) : Bool :=
  decide (now - s > max timeout DefaultCleanupTimeout)

/-- Modelled from the spec: `internal.GenReleaseName(namespace, compName)` —
a stable, deterministic string derived from `(namespace, componentName)`. -/
def GenReleaseName (ns comp : String) : String :=
  ns ++ "-" ++ comp

/-- Resource kinds touched by the cleanup coordinator. -/
inductive ResourceKind
  | deployment
  | statefulSet
  | daemonSet
  | job
  | pod
  | service
  | pvc
deriving DecidableEq, Repr

/-- A delete operation issued by the cleanup coordinator: a deploy-engine
`ForceDelete` of a release, a store `DeleteAllOf` of a kind matching the
component's selectors, or a store `Delete` of one service (by index in the
listed services). -/
inductive CleanupOp
  | engineForceDelete (refName : String)
  | storeDeleteAllOf (kind : ResourceKind) (ns : String) (comp : String)
  | storeDeleteService (ns : String) (comp : String) (idx : Nat)
deriving DecidableEq, Repr

/-- The only error the coordinator surfaces on the modelled paths:
`s2herrors.ErrForceDeletingComponents`. -/
inductive CleanErr
  | forceDeletingComponents
deriving DecidableEq, Repr

/-- Result of `WaitForComponentsCleaned`: the clean verdict, the delete
operations issued during the call, and the surfaced error, if any. -/
structure CleanResult where
  cleaned : Bool
  ops : List CleanupOp
  err : Option CleanErr
deriving DecidableEq, Repr

/-- The Kubernetes environment the coordinator observes: whether the engine
is mocked, and per component the number of pods, services and persistent
volume claims matching that component's label selectors in the namespace. -/
structure CleanupEnv where
  isMocked : Bool
  podCount : String → Nat
  svcCount : String → Nat
  pvcCount : String → Nat

/-- Go `forceCleanupPod` (controller.go lines 560-618): `DeleteAllOf` for
Deployments, StatefulSets, DaemonSets, Jobs and Pods, in that order. -/
def forceCleanupPodOps (ns comp : String) : List CleanupOp :=
  [CleanupOp.storeDeleteAllOf ResourceKind.deployment ns comp,
   CleanupOp.storeDeleteAllOf ResourceKind.statefulSet ns comp,
   CleanupOp.storeDeleteAllOf ResourceKind.daemonSet ns comp,
   CleanupOp.storeDeleteAllOf ResourceKind.job ns comp,
   CleanupOp.storeDeleteAllOf ResourceKind.pod ns comp]

/-- Go `forceCleanupService` (controller.go lines 620-633): delete each listed
service. -/
def forceCleanupServiceOps (ns comp : String) (count : Nat) : List CleanupOp :=
  (List.range count).map fun i => CleanupOp.storeDeleteService ns comp i

/-- The per-component loop of `WaitForComponentsCleaned` (controller.go
lines 477-541): optionally force-delete the release, then check pods,
services and PVCs in turn; any non-empty list stops the loop unclean. -/
def waitForComponentsCleanedLoop (env : CleanupEnv) (ns : String)
    (forceClean : Bool) : List String → CleanResult
  | [] => ⟨true, [], none⟩
  | comp :: rest =>
    let refName := GenReleaseName ns comp
    let fOps : List CleanupOp :=
      if forceClean then [CleanupOp.engineForceDelete refName] else []
    if env.podCount comp > 0 then
      if forceClean then
        ⟨false, fOps ++ forceCleanupPodOps ns comp, some CleanErr.forceDeletingComponents⟩
      else ⟨false, fOps, none⟩
    else if env.svcCount comp > 0 then
      if forceClean then
        ⟨false, fOps ++ forceCleanupServiceOps ns comp (env.svcCount comp),
          some CleanErr.forceDeletingComponents⟩
      else ⟨false, fOps, none⟩
    else if env.pvcCount comp > 0 then
      ⟨false, fOps ++ [CleanupOp.storeDeleteAllOf ResourceKind.pvc ns comp], none⟩
    else
      let r := waitForComponentsCleanedLoop env ns forceClean rest
      ⟨r.cleaned, fOps ++ r.ops, r.err⟩

/-- Go `WaitForComponentsCleaned` (controller.go lines 460-544): a mocked engine
is immediately clean; otherwise `forceClean` is computed by
`IsCleanupTimeout` and the component loop runs. -/
def WaitForComponentsCleaned (env : CleanupEnv) (ns : String)
    (parentComps : List String) (now : Int) (startCleaningTime : Option Int)
    (cleanupTimeout : Int) : CleanResult :=
  if env.isMocked then ⟨true, [], none⟩
  else
    waitForComponentsCleanedLoop env ns
      (IsCleanupTimeout now startCleaningTime cleanupTimeout) parentComps

/-- Errors surfaced by the modelled handlers (internal/errors). -/
inductive StagingError
  | ErrNoDeployConfig
  | ErrTestTimeout
  | ErrTestRunnerNotFound
deriving DecidableEq, Repr

/-- Result of running one state handler: the updated queue item, whether the
item was persisted to the store, and the surfaced error, if any. -/
structure HandlerResult where
  queue : Queue
  persisted : Bool
  error : Option StagingError
deriving DecidableEq, Repr

/-- The test result strings of start_testrunner.go. -/
def testResultSuccess : String := "PASSED"

/-- See `testResultSuccess`. -/
def testResultFailure : String := "FAILED"

/-- See `testResultSuccess`. -/
def testResultUnknown : String := "UNKNOWN"

/-- Modelled from the spec: the stable name of the mock test runner
(`testmock.TestRunnerName`, outside the provided sources). -/
def testmockTestRunnerName : String := "mock"

/-- Modelled from the spec: the stable name of the teamcity test runner
(`teamcity.TestRunnerName`, outside the provided sources). -/
def teamcityTestRunnerName : String := "teamcity"

/-- Modelled from the spec: the stable name of the gitlab test runner
(`gitlab.TestRunnerName`, outside the provided sources). -/
def gitlabTestRunnerName : String := "gitlab"

/-- A registered test runner: its stable name and whether `Trigger` succeeds
for the current item (the external runner's behaviour, as an oracle). -/
structure TestRunner where
  name : String
  triggerOk : Bool
deriving DecidableEq, Repr

/-- The per-team test configuration the controller reads
(`testConfig.Timeout`, `PollingTime`, and the presence of the `Teamcity`,
`Gitlab` and `TestMock` runner subconfigs). -/
structure TestConfig where
  timeout : Int
  pollingTime : Int
  teamcity : Bool
  gitlab : Bool
  testMock : Bool
deriving DecidableEq, Repr

/-- The testing timeout resolution of `startTesting` (start_testrunner.go
lines 29-32): the 1800 s default unless the test config sets a nonzero
timeout. -/
def resolveTestingTimeout (testConfig : Option TestConfig) : Int :=
  match testConfig with
  | some cfg => if cfg.timeout ≠ 0 then cfg.timeout else testTimeout
  | none => testTimeout

/-- Go `updateTestQueueCondition` (start_testrunner.go lines 222-232): set the
`QueueTested` condition and persist the item with state `Collecting`. -/
def updateTestQueueCondition (q : Queue) (status : ConditionStatus)
    (message : String) : Queue :=
  updateQueueWithState
    { q with status := { q.status with
        conditions := setCondition q.status.conditions
          QueueConditionType.queueTested status message } }
    QueueState.collecting

/-- Go `checkTestTimeout` (start_testrunner.go lines 100-117): when the item has
a start-testing time and `now.Sub(start) > testingTimeout` strictly, set
`QueueTested=False("queue testing timeout")`, persist with state advanced to
`Collecting`, and return `ErrTestTimeout`; otherwise do nothing. -/
def checkTestTimeout (now : Int) (testingTimeout : Int) (q : Queue) : HandlerResult :=
  match q.status.startTestingTime with
  | some st =>
    if now - st > testingTimeout then
      ⟨updateTestQueueCondition q ConditionStatus.conditionFalse "queue testing timeout",
        true, some StagingError.ErrTestTimeout⟩
    else ⟨q, false, none⟩
  | none => ⟨q, false, none⟩

/-- Outcome of one `triggerTest` call: skipped-or-succeeded, a `Trigger`
error, or the runtime panic of calling `GetName()` on a nil runner
interface. -/
inductive TriggerOutcome
  | ok
  | triggerFailed
  | nilPanic
deriving DecidableEq, Repr

/-- Go `triggerTest` (start_testrunner.go lines 177-194): under the
`QueueTestTriggered`-not-True guard it first evaluates
`testRunner.GetName()`; when the runner entry is the nil interface obtained
from a registry miss, that call dereferences nil (modelled as `nilPanic`);
otherwise `Trigger` runs and may fail. Once the condition is True nothing is
called. -/
def triggerTest (q : Queue) (testRunner : Option TestRunner) : TriggerOutcome :=
  if isConditionTrue q.status.conditions QueueConditionType.queueTestTriggered then
    TriggerOutcome.ok
  else
    match testRunner with
    | none => TriggerOutcome.nilPanic
    | some r => if r.triggerOk then TriggerOutcome.ok else TriggerOutcome.triggerFailed

/-- The trigger loop of `startTesting` (start_testrunner.go lines 47-51):
run `triggerTest` on each runner in order, stopping at the first failure;
returns the names of the runners whose `Trigger` was actually invoked,
together with the outcome. -/
def triggerLoop (q : Queue) : List (Option TestRunner) → List String × TriggerOutcome
  | [] => ([], TriggerOutcome.ok)
  | r :: rest =>
    if isConditionTrue q.status.conditions QueueConditionType.queueTestTriggered then
      triggerLoop q rest
    else
      match r with
      | none => ([], TriggerOutcome.nilPanic)
      | some tr =>
        if tr.triggerOk then
          let p := triggerLoop q rest
          (tr.name :: p.1, p.2)
        else ([tr.name], TriggerOutcome.triggerFailed)

/-- Result of the trigger phase of `startTesting`: the updated queue, the
names of runners whose `Trigger` was invoked, whether the queue was persisted
and the outcome. -/
structure TriggerPhase where
  queue : Queue
  triggerCalls : List String
  persisted : Bool
  outcome : TriggerOutcome
deriving DecidableEq, Repr

/-- The trigger phase of `startTesting` (start_testrunner.go lines 46-63):
trigger every runner; then, if `QueueTestTriggered` is not yet True, set it
True with message "queue testing triggered" and persist the queue. -/
def triggerPhase (q : Queue) (testRunners : List (Option TestRunner)) : TriggerPhase :=
  match triggerLoop q testRunners with
  | (calls, TriggerOutcome.ok) =>
    if isConditionTrue q.status.conditions QueueConditionType.queueTestTriggered then
      ⟨q, calls, false, TriggerOutcome.ok⟩
    else
      let conds := setCondition q.status.conditions QueueConditionType.queueTestTriggered
        ConditionStatus.conditionTrue "queue testing triggered"
      ⟨{ q with status := { q.status with conditions := conds } },
        calls, true, TriggerOutcome.ok⟩
  | (calls, o) => ⟨q, calls, false, o⟩

/-- The runner list built by `checkTestConfig` (start_testrunner.go lines
150-158): for each present subconfig, append the registry lookup of the
runner's stable name — the lookup of an unregistered name is the nil
interface (`none`) and is appended all the same. -/
def enabledRunners (registry : String → Option TestRunner) (cfg : TestConfig) :
    List (Option TestRunner) :=
  (if cfg.teamcity then [registry teamcityTestRunnerName] else []) ++
  (if cfg.gitlab then [registry gitlabTestRunnerName] else []) ++
  (if cfg.testMock then [registry testmockTestRunnerName] else [])

/-- Result of `checkTestConfig`. -/
structure CheckTestConfigResult where
  skipTest : Bool
  testRunners : List (Option TestRunner)
  queue : Queue
  persisted : Bool
  error : Option StagingError
deriving DecidableEq, Repr

/-- Go `checkTestConfig` (start_testrunner.go lines 120-175): skip on
`spec.skipTestRunner` or a missing test configuration (marking
`QueueTested=True` and advancing); otherwise build the runner list from the
present subconfigs; only an empty list takes the "test runner not found"
branch; finally stamp `startTestingTime` if unset and persist. -/
def checkTestConfig (registry : String → Option TestRunner)
    (testConfig : Option TestConfig) (now : Int) (q : Queue) : CheckTestConfigResult :=
  if q.skipTestRunner then
    ⟨true, [], updateTestQueueCondition q ConditionStatus.conditionTrue "skip running test",
      true, none⟩
  else
    match testConfig with
    | none =>
      ⟨true, [],
        updateTestQueueCondition q ConditionStatus.conditionTrue
          "queue testing succeeded because no testing configuration",
        true, none⟩
    | some cfg =>
      let testRunners := enabledRunners registry cfg
      if testRunners.isEmpty then
        ⟨false, testRunners,
          updateTestQueueCondition q ConditionStatus.conditionFalse "test runner not found",
          true, some StagingError.ErrTestRunnerNotFound⟩
      else
        match q.status.startTestingTime with
        | none =>
          ⟨false, testRunners,
            { q with status := { q.status with startTestingTime := some now } },
            true, none⟩
        | some _ => ⟨false, testRunners, q, false, none⟩

/-- The condition payload written by `setTestResultCondition` for a matched
runner: "queue testing of failed"/False on `FAILED`, "queue testing
succeeded"/True on `PASSED`, "unknown result"/True otherwise. -/
def setTestResultConditionWith (q : Queue) (ct : QueueConditionType)
    (result : String) : Queue :=
  let mc : ConditionStatus × String :=
    if result = testResultFailure then
      (ConditionStatus.conditionFalse, "queue testing of failed")
    else if result = testResultSuccess then
      (ConditionStatus.conditionTrue, "queue testing succeeded")
    else (ConditionStatus.conditionTrue, "unknown result")
  { q with status := { q.status with
      conditions := setCondition q.status.conditions ct mc.1 mc.2 } }

/-- Go `setTestResultCondition` (start_testrunner.go lines 234-263): a
per-runner result condition exists only for the gitlab and teamcity runners;
any other runner name (the mock runner included) falls into the default
branch, which sets nothing and does not persist. The paired Bool records
whether `updateQueue` was called. -/
def setTestResultCondition (q : Queue) (testRunnerName : String)
    (result : String) : Queue × Bool :=
  if testRunnerName = gitlabTestRunnerName then
    (setTestResultConditionWith q QueueConditionType.queueGitlabTestResult result, true)
  else if testRunnerName = teamcityTestRunnerName then
    (setTestResultConditionWith q QueueConditionType.queueTeamcityTestResult result, true)
  else (q, false)

/-- Go `loadTestRunners` (controller.go lines 248-270): the mock runner is
always registered; the teamcity runner only when base URL, username and
password are all nonempty; the gitlab runner only when its base URL is
nonempty. `trig` is the oracle for each runner's `Trigger` behaviour. -/
def loadTestRunners (teamcityBaseURL teamcityUsername teamcityPassword gitlabBaseURL : String)
    (trig : String → Bool) : List TestRunner :=
  [⟨testmockTestRunnerName, trig testmockTestRunnerName⟩] ++
  (if teamcityBaseURL ≠ "" ∧ teamcityUsername ≠ "" ∧ teamcityPassword ≠ "" then
    [⟨teamcityTestRunnerName, trig teamcityTestRunnerName⟩] else []) ++
  (if gitlabBaseURL ≠ "" then [⟨gitlabTestRunnerName, trig gitlabTestRunnerName⟩] else [])

/-- The Go map `c.testRunners` keyed by runner name: lookup of an absent name
gives the nil interface, i.e. `none`. -/
def runnerRegistry (rs : List TestRunner) (name : String) : Option TestRunner :=
  rs.find? fun r => r.name == name

/-- Modelled from the spec: the stable name of the mock deploy engine
(outside the provided sources). -/
def mockDeployEngineName : String := "mock"

/-- Modelled from the spec: the stable name of the helm3 deploy engine
(outside the provided sources). -/
def helm3DeployEngineName : String := "helm3"

/-- Go `loadDeployEngines` (controller.go lines 232-246): registers the mock and
helm3 engines, keyed by their stable names. -/
def loadDeployEngines : List String :=
  [mockDeployEngineName, helm3DeployEngineName]

/-- The deployment configuration resolved for an item: the optional engine
name and the per-component cleanup timeout. -/
structure DeployConfig where
  engine : Option String
  componentCleanupTimeout : Int
deriving DecidableEq, Repr

/-- Go `generateQueueHistoryName` (controller.go lines 635-638): `nowStr` stands
for `now.Format("20060102-150405")`, the UTC yyyymmdd-HHMMSS stamp. -/
def generateQueueHistoryName (queueName : String) (nowStr : String) : String :=
  queueName ++ "-" ++ nowStr

/-- Go `initQueue` (controller.go lines 325-344): with no resolvable deployment
configuration, return an error and change nothing; otherwise increment
`noOfProcessed`, stamp `queueHistoryName`, adopt the configured engine only
if it is registered, set `QueueCleaningBeforeStarted=True`, and persist with
state `CleaningBefore`. -/
def initQueue (deployEngines : List String) (deployConfig : Option DeployConfig)
    (nowStr : String) (q : Queue) : HandlerResult :=
  match deployConfig with
  | none => ⟨q, false, some StagingError.ErrNoDeployConfig⟩
  | some cfg =>
    let st := q.status
    let st := { st with
      noOfProcessed := st.noOfProcessed + 1,
      queueHistoryName := generateQueueHistoryName q.name nowStr }
    let st :=
      match cfg.engine with
      | some e => if deployEngines.contains e then { st with deployEngine := e } else st
      | none => st
    let conds := setCondition st.conditions QueueConditionType.queueCleaningBeforeStarted
      ConditionStatus.conditionTrue "starts cleaning the namespace before running task"
    let st := { st with conditions := conds }
    ⟨updateQueueWithState { q with status := st } QueueState.cleaningBefore, true, none⟩

/-- The Waiting (or empty-state) dispatch of `process` (controller.go lines
186-207): PromoteToActive and DemoteFromActive items only increment
`noOfProcessed` and persist with state `DetectingImageMissing`; every other
type runs `initQueue`. -/
def processWaiting (deployEngines : List String) (deployConfig : Option DeployConfig)
    (nowStr : String) (q : Queue) : HandlerResult :=
  match q.qtype with
  | QueueType.promoteToActive | QueueType.demoteFromActive =>
    ⟨updateQueueWithState
        { q with status := { q.status with noOfProcessed := q.status.noOfProcessed + 1 } }
        QueueState.detectingImageMissing,
      true, none⟩
  | _ => initQueue deployEngines deployConfig nowStr q

/-- What the store returns when the tick fetches the current item by
`(namespace, name)`: not found (deleted by the user), a transient fetch
error, or the stored copy. -/
inductive FetchResult
  | notFound
  | fetchErr
  | found (q : Queue)
deriving DecidableEq, Repr

/-- Go `isQueueStateValid` (controller.go lines 291-294): true when the queue is
neither Deleting nor Cancelling. -/
def isQueueStateValid (q : Queue) : Bool :=
  q.status.state != QueueState.deleting && q.status.state != QueueState.cancelling

/-- Result of the sync step: the new in-memory queue and whether the fetch
failed with a non-not-found error (which ends the tick). -/
structure SyncResult where
  queue : Queue
  fetchFailed : Bool
deriving DecidableEq, Repr

/-- Go `syncQueueWithK8s` (controller.go lines 297-323): on not-found, set the
in-memory state to Cancelling (no store write); on another error, fail the
tick; on success, the fetched copy replaces the in-memory one when they
differ (value-wise this always yields the fetched copy). -/
def syncQueueWithK8s (fetch : FetchResult) (q : Queue) : SyncResult :=
  match fetch with
  | FetchResult.notFound => ⟨setState q QueueState.cancelling, false⟩
  | FetchResult.fetchErr => ⟨q, true⟩
  | FetchResult.found f => ⟨f, false⟩

/-- Result of one tick: the controller's current item after the tick and the
number of store writes issued during dispatch. -/
structure TickResult where
  currentQueue : Option Queue
  storeWrites : Nat
deriving DecidableEq, Repr

/-- The dispatch step of `process` (controller.go lines 184-227) with the
non-terminal handlers abstracted: `Cancelling` runs `cancelQueue`
(lines 442-445), which only clears `currentQueue` and issues no store write;
`Finished` is a no-op; every other state runs its handler, abstracted as a
function from the queue to the updated queue and the number of store writes
it issues. -/
def dispatchState (handlers : Queue → Queue × Nat) (q : Queue) : TickResult :=
  match q.status.state with
  | QueueState.cancelling => ⟨none, 0⟩
  | QueueState.finished => ⟨some q, 0⟩
  | _ => ⟨some (handlers q).1, (handlers q).2⟩

/-- One reconcile tick of `process` (controller.go lines 145-230) for a held
queue item: unless the in-memory state is Deleting or Cancelling, sync with
the store first (a fetch error ends the tick without dispatching); then
dispatch on the synced state. -/
def processTick (fetch : FetchResult) (handlers : Queue → Queue × Nat)
    (q : Queue) : TickResult :=
  if isQueueStateValid q then
    let s := syncQueueWithK8s fetch q
    if s.fetchFailed then ⟨some q, 0⟩
    else dispatchState handlers s.queue
  else dispatchState handlers q

/-- Helper: on a component list whose pod, service and PVC lists are all
empty, the cleanup loop reports clean, surfaces no error, and its only
operations are the per-component engine `ForceDelete` calls issued when
`forceClean` is set. -/
theorem waitLoop_on_clean (env : CleanupEnv) (ns : String) (forceClean : Bool)
    (comps : List String)
    (h : ∀ c ∈ comps, env.podCount c = 0 ∧ env.svcCount c = 0 ∧ env.pvcCount c = 0) :
    waitForComponentsCleanedLoop env ns forceClean comps =
      ⟨true,
       if forceClean then
         comps.map fun c => CleanupOp.engineForceDelete (GenReleaseName ns c)
       else [],
       none⟩ := by
  induction comps with
  | nil => cases forceClean <;> rfl
  | cons comp rest ih =>
    have hc := h comp (List.mem_cons_self comp rest)
    have hrest : ∀ c ∈ rest,
        env.podCount c = 0 ∧ env.svcCount c = 0 ∧ env.pvcCount c = 0 :=
      fun c hcmem => h c (List.mem_cons_of_mem comp hcmem)
    have hr := ih hrest
    simp only [waitForComponentsCleanedLoop, hc.1, hc.2.1, hc.2.2, hr]
    cases forceClean <;> simp

/-- C7: for a nil start time `IsCleanupTimeout` is false for every timeout,
and for a non-nil start a timeout of `0` is replaced with the 15-minute
`DefaultCleanupTimeout` before the strict comparison is evaluated. -/
theorem isCleanupTimeout_nil_and_zero :
    (∀ now timeout : Int, IsCleanupTimeout now none timeout = false) ∧
    (∀ now s : Int, IsCleanupTimeout now (some s) 0 =
      decide (now - s > DefaultCleanupTimeout)) := by
  constructor
  · intro now timeout
    rfl
  · intro now s
    simp [IsCleanupTimeout]

/-- C2 counterexample: with cleanup timeout 1 s and 2 s elapsed since the
cleaning start, the code enables forced cleanup, while the claimed formula
`now - s > max(t, 15 min)` says it must not be enabled yet. -/
theorem isCleanupTimeout_differs_from_max_formula :
    IsCleanupTimeout (2 * second) (some 0) (1 * second) = true ∧
    cleanupTimeoutSpec (2 * second) 0 (1 * second) = false := by
  constructor
  · decide
  · decide

/-- C2 amended: forced cleanup is enabled exactly when
`now - s > (t when t ≠ 0, else DefaultCleanupTimeout = 15 min)`; the default
substitutes only for a zero timeout, so a positive timeout below 15 minutes
is honoured as given. -/
theorem isCleanupTimeout_characterization (now s timeout : Int) :
    IsCleanupTimeout now (some s) timeout =
      decide (now - s > if timeout = 0 then DefaultCleanupTimeout else timeout) :=
  rfl

/-- C5 counterexample: a call on an already-clean namespace (all pod, service
and PVC counts zero) after the cleanup timeout has elapsed returns clean yet
still issues a deploy-engine `ForceDelete` for the parent component. -/
theorem waitClean_forced_delete_on_clean_namespace :
    WaitForComponentsCleaned
      ⟨false, fun _ => 0, fun _ => 0, fun _ => 0⟩
      "ns" ["redis"] (16 * minute) (some 0) (2 * second) =
    ⟨true, [CleanupOp.engineForceDelete "ns-redis"], none⟩ := by
  decide

/-- C5 amended: on an already-clean namespace the coordinator returns clean
with no error, never issues a store delete, and issues no delete at all
unless the cleanup timeout has elapsed; once it has (`forceClean`), the only
operations issued are the engine `ForceDelete` calls, one per parent
component. -/
theorem waitClean_idempotent_on_clean (env : CleanupEnv) (ns : String)
    (comps : List String) (now : Int) (start : Option Int) (timeout : Int)
    (h : ∀ c ∈ comps, env.podCount c = 0 ∧ env.svcCount c = 0 ∧ env.pvcCount c = 0) :
    (WaitForComponentsCleaned env ns comps now start timeout).cleaned = true ∧
    (WaitForComponentsCleaned env ns comps now start timeout).err = none ∧
    (∀ op ∈ (WaitForComponentsCleaned env ns comps now start timeout).ops,
      ∃ rn, op = CleanupOp.engineForceDelete rn) ∧
    (IsCleanupTimeout now start timeout = false →
      (WaitForComponentsCleaned env ns comps now start timeout).ops = []) := by
  unfold WaitForComponentsCleaned
  by_cases hm : env.isMocked
  · simp [hm]
  · simp only [hm, Bool.false_eq_true, if_false, if_neg]
    rw [waitLoop_on_clean env ns _ comps h]
    refine ⟨rfl, rfl, ?_, ?_⟩
    · intro op hop
      by_cases hf : IsCleanupTimeout now start timeout = true
      · simp only [hf, if_true] at hop
        rcases List.mem_map.mp hop with ⟨c, _, rfl⟩
        exact ⟨GenReleaseName ns c, rfl⟩
      · simp only [Bool.not_eq_true] at hf
        simp [hf] at hop
    · intro hf
      simp [hf]

/-- C5 amended witness: a concrete clean environment with one parent
component and no cleanup timeout elapsed returns clean with no operations. -/
theorem waitClean_idempotent_on_clean_witness :
    (WaitForComponentsCleaned ⟨false, fun _ => 0, fun _ => 0, fun _ => 0⟩
      "ns" ["redis"] 0 none (2 * second)).cleaned = true ∧
    (WaitForComponentsCleaned ⟨false, fun _ => 0, fun _ => 0, fun _ => 0⟩
      "ns" ["redis"] 0 none (2 * second)).ops = [] := by
  have h := waitClean_idempotent_on_clean
    ⟨false, fun _ => 0, fun _ => 0, fun _ => 0⟩ "ns" ["redis"] 0 none (2 * second)
    (by intro c _; exact ⟨rfl, rfl, rfl⟩)
  exact ⟨h.1, h.2.2.2 (by decide)⟩

/-- Helper: after `setCondition conds t s m`, the condition `⟨t, s, m⟩` is in
the resulting list, in the no-op, replace and append branches alike. -/
theorem mem_setCondition (conds : List QueueCondition) (t : QueueConditionType)
    (s : ConditionStatus) (m : String) :
    QueueCondition.mk t s m ∈ setCondition conds t s m := by
  unfold setCondition
  by_cases h1 : QueueCondition.mk t s m ∈ conds
  · rw [if_pos h1]
    exact h1
  · rw [if_neg h1]
    by_cases h2 : (conds.any fun c => c.condType == t) = true
    · rw [if_pos h2]
      rcases List.any_eq_true.mp h2 with ⟨c, hc, hct⟩
      refine List.mem_map.mpr ⟨c, hc, ?_⟩
      simp [hct]
    · rw [if_neg h2]
      simp

/-- C1: if the item is deleted from the store while the in-memory state is
neither Deleting nor Cancelling, the sync step of the next tick sets the
in-memory state to Cancelling, and that same tick dispatches on Cancelling,
releasing ownership (`currentItem := nil`) with zero store writes — for
every possible behaviour of the other state handlers. -/
theorem deletion_causes_cancel (q : Queue) (handlers : Queue → Queue × Nat)
    (h1 : q.status.state ≠ QueueState.deleting)
    (h2 : q.status.state ≠ QueueState.cancelling) :
    (syncQueueWithK8s FetchResult.notFound q).queue.status.state = QueueState.cancelling ∧
    processTick FetchResult.notFound handlers q = ⟨none, 0⟩ := by
  have hv : isQueueStateValid q = true := by
    simp [isQueueStateValid, h1, h2]
  refine ⟨rfl, ?_⟩
  simp [processTick, hv, syncQueueWithK8s, dispatchState, setState]

/-- C1 witness: a concrete item in Creating whose store copy has vanished is
released on the next tick with no store write. -/
theorem deletion_causes_cancel_witness :
    processTick FetchResult.notFound (fun q => (q, 1))
      ⟨"redis", "ns", QueueType.upgrade, false,
        ⟨QueueState.creating, 1, [], none, "", ""⟩⟩ = ⟨none, 0⟩ :=
  (deletion_causes_cancel
    ⟨"redis", "ns", QueueType.upgrade, false,
      ⟨QueueState.creating, 1, [], none, "", ""⟩⟩
    (fun q => (q, 1)) (by decide) (by decide)).2

/-- C3: with `startTestingTime` set, elapsed time exactly equal to the
testing timeout is not a timeout (the handler changes nothing); strictly
greater elapsed time sets `QueueTested=False("queue testing timeout")`,
persists the item with state advanced to Collecting, and returns
`ErrTestTimeout`. -/
theorem checkTestTimeout_boundary (now st timeout : Int) (q : Queue)
    (h : q.status.startTestingTime = some st) :
    (now - st = timeout → checkTestTimeout now timeout q = ⟨q, false, none⟩) ∧
    (now - st > timeout →
      (checkTestTimeout now timeout q).error = some StagingError.ErrTestTimeout ∧
      (checkTestTimeout now timeout q).persisted = true ∧
      (checkTestTimeout now timeout q).queue.status.state = QueueState.collecting ∧
      QueueCondition.mk QueueConditionType.queueTested ConditionStatus.conditionFalse
          "queue testing timeout" ∈
        (checkTestTimeout now timeout q).queue.status.conditions) := by
  have hred : checkTestTimeout now timeout q =
      if now - st > timeout then
        ⟨updateTestQueueCondition q ConditionStatus.conditionFalse "queue testing timeout",
          true, some StagingError.ErrTestTimeout⟩
      else ⟨q, false, none⟩ := by
    unfold checkTestTimeout
    rw [h]
  constructor
  · intro heq
    rw [hred, if_neg (by simp [heq])]
  · intro hgt
    rw [hred, if_pos hgt]
    exact ⟨rfl, rfl, rfl, mem_setCondition q.status.conditions _ _ _⟩

/-- C3 witness: at 2 s elapsed against a 1 s timeout the handler reports the
timeout error. -/
theorem checkTestTimeout_boundary_witness :
    ((2 : Int) * second - 0 > second) ∧
    (checkTestTimeout (2 * second) second
        ⟨"redis", "ns", QueueType.upgrade, false,
          ⟨QueueState.testing, 1, [], some 0, "", ""⟩⟩).error =
      some StagingError.ErrTestTimeout :=
  ⟨by decide,
    ((checkTestTimeout_boundary (2 * second) 0 second
        ⟨"redis", "ns", QueueType.upgrade, false,
          ⟨QueueState.testing, 1, [], some 0, "", ""⟩⟩ rfl).2 (by decide)).1⟩

/-- C8: with no resolvable deployment configuration, the Waiting handler
`initQueue` returns an error and persists nothing: the returned item is the
input unchanged (state, `noOfProcessed` and `queueHistoryName` included), so
the next tick retries from the same state. -/
theorem initQueue_no_config_retries (deployEngines : List String) (nowStr : String)
    (q : Queue) :
    initQueue deployEngines none nowStr q =
      ⟨q, false, some StagingError.ErrNoDeployConfig⟩ ∧
    (initQueue deployEngines none nowStr q).queue.status.state = q.status.state ∧
    (initQueue deployEngines none nowStr q).queue.status.noOfProcessed =
      q.status.noOfProcessed ∧
    (initQueue deployEngines none nowStr q).queue.status.queueHistoryName =
      q.status.queueHistoryName ∧
    (initQueue deployEngines none nowStr q).persisted = false :=
  ⟨rfl, rfl, rfl, rfl, rfl⟩

/-- C4 counterexample: a PromoteToActive item whose Waiting handler succeeds
has `noOfProcessed` incremented, but `queueHistoryName` is never stamped and
the configured, registered engine name is not adopted. -/
theorem waiting_promote_skips_stamp :
    processWaiting loadDeployEngines (some ⟨some "helm3", 0⟩) "20200101-000000"
        ⟨"wordpress", "ns", QueueType.promoteToActive, false,
          ⟨QueueState.waiting, 0, [], none, "", ""⟩⟩ =
      ⟨⟨"wordpress", "ns", QueueType.promoteToActive, false,
          ⟨QueueState.detectingImageMissing, 1, [], none, "", ""⟩⟩, true, none⟩ ∧
    generateQueueHistoryName "wordpress" "20200101-000000" ≠ "" := by
  constructor
  · rfl
  · decide

/-- Helper: `initQueue` with a present deployment configuration succeeds,
persists with state CleaningBefore, increments `noOfProcessed`, stamps
`queueHistoryName`, and adopts the configured engine exactly when that name
is registered. -/
theorem initQueue_some (deployEngines : List String) (eng : Option String) (ct : Int)
    (nowStr : String) (q : Queue) :
    (initQueue deployEngines (some ⟨eng, ct⟩) nowStr q).error = none ∧
    (initQueue deployEngines (some ⟨eng, ct⟩) nowStr q).persisted = true ∧
    (initQueue deployEngines (some ⟨eng, ct⟩) nowStr q).queue.status.noOfProcessed =
      q.status.noOfProcessed + 1 ∧
    (initQueue deployEngines (some ⟨eng, ct⟩) nowStr q).queue.status.queueHistoryName =
      generateQueueHistoryName q.name nowStr ∧
    (initQueue deployEngines (some ⟨eng, ct⟩) nowStr q).queue.status.state =
      QueueState.cleaningBefore ∧
    (∀ e, eng = some e → deployEngines.contains e = true →
      (initQueue deployEngines (some ⟨eng, ct⟩) nowStr q).queue.status.deployEngine = e) ∧
    (∀ e, eng = some e → deployEngines.contains e = false →
      (initQueue deployEngines (some ⟨eng, ct⟩) nowStr q).queue.status.deployEngine =
        q.status.deployEngine) := by
  cases eng with
  | none =>
    refine ⟨rfl, rfl, rfl, rfl, rfl, ?_, ?_⟩ <;> (intro e he; cases he)
  | some e0 =>
    refine ⟨rfl, rfl, ?_, ?_, ?_, ?_, ?_⟩
    · simp only [initQueue]
      split <;> rfl
    · simp only [initQueue]
      split <;> rfl
    · simp only [initQueue]
      split <;> rfl
    · intro e he hc
      injection he with hee
      subst hee
      simp only [initQueue]
      rw [if_pos hc]
      rfl
    · intro e he hc
      injection he with hee
      subst hee
      simp only [initQueue]
      rw [if_neg (by simpa using hc)]
      rfl

/-- C4 amended: for Upgrade and PullRequest items the Waiting handler
increments `noOfProcessed` by one, stamps
`queueHistoryName = "{itemName}-{timestamp}"`, sets
`QueueCleaningBeforeStarted=True`, adopts the configured engine exactly when
it is registered, and persists with state CleaningBefore; for PromoteToActive
and DemoteFromActive items it only increments `noOfProcessed` and persists
with state DetectingImageMissing, leaving `queueHistoryName` untouched. -/
theorem waiting_transition_by_type (deployEngines : List String) (cfg : DeployConfig)
    (nowStr : String) (q : Queue) :
    ((q.qtype = QueueType.upgrade ∨ q.qtype = QueueType.pullRequest) →
      (processWaiting deployEngines (some cfg) nowStr q).error = none ∧
      (processWaiting deployEngines (some cfg) nowStr q).persisted = true ∧
      (processWaiting deployEngines (some cfg) nowStr q).queue.status.noOfProcessed =
        q.status.noOfProcessed + 1 ∧
      (processWaiting deployEngines (some cfg) nowStr q).queue.status.queueHistoryName =
        generateQueueHistoryName q.name nowStr ∧
      (processWaiting deployEngines (some cfg) nowStr q).queue.status.state =
        QueueState.cleaningBefore ∧
      (∀ e, cfg.engine = some e → deployEngines.contains e = true →
        (processWaiting deployEngines (some cfg) nowStr q).queue.status.deployEngine = e) ∧
      (∀ e, cfg.engine = some e → deployEngines.contains e = false →
        (processWaiting deployEngines (some cfg) nowStr q).queue.status.deployEngine =
          q.status.deployEngine)) ∧
    ((q.qtype = QueueType.promoteToActive ∨ q.qtype = QueueType.demoteFromActive) →
      (processWaiting deployEngines (some cfg) nowStr q).error = none ∧
      (processWaiting deployEngines (some cfg) nowStr q).persisted = true ∧
      (processWaiting deployEngines (some cfg) nowStr q).queue.status.noOfProcessed =
        q.status.noOfProcessed + 1 ∧
      (processWaiting deployEngines (some cfg) nowStr q).queue.status.queueHistoryName =
        q.status.queueHistoryName ∧
      (processWaiting deployEngines (some cfg) nowStr q).queue.status.state =
        QueueState.detectingImageMissing) := by
  rcases cfg with ⟨eng, ct⟩
  constructor
  · intro hty
    have hred : processWaiting deployEngines (some ⟨eng, ct⟩) nowStr q =
        initQueue deployEngines (some ⟨eng, ct⟩) nowStr q := by
      rcases hty with h | h <;> (unfold processWaiting; rw [h])
    rw [hred]
    exact initQueue_some deployEngines eng ct nowStr q
  · intro hty
    have hred : processWaiting deployEngines (some ⟨eng, ct⟩) nowStr q =
        ⟨updateQueueWithState
            { q with status := { q.status with noOfProcessed := q.status.noOfProcessed + 1 } }
            QueueState.detectingImageMissing, true, none⟩ := by
      rcases hty with h | h <;> (unfold processWaiting; rw [h])
    rw [hred]
    exact ⟨rfl, rfl, rfl, rfl, rfl⟩

/-- C4 amended witness: a concrete Upgrade item with a registered engine gets
its history name stamped. -/
theorem waiting_transition_by_type_witness :
    (processWaiting loadDeployEngines (some ⟨some "helm3", 0⟩) "20200101-000000"
        ⟨"redis", "ns", QueueType.upgrade, false,
          ⟨QueueState.waiting, 0, [], none, "", ""⟩⟩).queue.status.queueHistoryName =
      generateQueueHistoryName "redis" "20200101-000000" :=
  ((waiting_transition_by_type loadDeployEngines ⟨some "helm3", 0⟩ "20200101-000000"
      ⟨"redis", "ns", QueueType.upgrade, false,
        ⟨QueueState.waiting, 0, [], none, "", ""⟩⟩).1 (Or.inl rfl)).2.2.2.1

/-- Helper: once `QueueTestTriggered` is True, the trigger loop makes no
`Trigger` call and ends ok. -/
theorem triggerLoop_skips_when_triggered (q : Queue)
    (h : isConditionTrue q.status.conditions QueueConditionType.queueTestTriggered = true)
    (rs : List (Option TestRunner)) :
    triggerLoop q rs = ([], TriggerOutcome.ok) := by
  induction rs with
  | nil => rfl
  | cons r rest ih =>
    simp only [triggerLoop, h, if_true]
    exact ih

/-- Helper: when `QueueTestTriggered` is not yet True and every runner entry
is a registered runner whose `Trigger` succeeds, the trigger loop ends ok. -/
theorem triggerLoop_ok_when_all_ok (q : Queue)
    (h : isConditionTrue q.status.conditions QueueConditionType.queueTestTriggered = false)
    (rs : List (Option TestRunner))
    (hall : ∀ r ∈ rs, ∃ tr : TestRunner, r = some tr ∧ tr.triggerOk = true) :
    (triggerLoop q rs).2 = TriggerOutcome.ok := by
  induction rs with
  | nil => rfl
  | cons r rest ih =>
    rcases hall r (List.mem_cons_self r rest) with ⟨tr, rfl, htr⟩
    have hrest : ∀ x ∈ rest, ∃ tr2 : TestRunner, x = some tr2 ∧ tr2.triggerOk = true :=
      fun x hx => hall x (List.mem_cons_of_mem _ hx)
    simp only [triggerLoop, h, Bool.false_eq_true, if_false, htr, if_true]
    exact ih hrest

/-- C6: once `QueueTestTriggered` is True, a Testing tick makes no `Trigger`
call on any runner; and when it is not yet True and every enabled runner's
`Trigger` succeeds, the phase sets `QueueTestTriggered=True("queue testing
triggered")` and persists the item. -/
theorem testTriggered_guard (q : Queue) (testRunners : List (Option TestRunner)) :
    (isConditionTrue q.status.conditions QueueConditionType.queueTestTriggered = true →
      (triggerPhase q testRunners).triggerCalls = []) ∧
    (isConditionTrue q.status.conditions QueueConditionType.queueTestTriggered = false →
      (∀ r ∈ testRunners, ∃ tr : TestRunner, r = some tr ∧ tr.triggerOk = true) →
      QueueCondition.mk QueueConditionType.queueTestTriggered ConditionStatus.conditionTrue
          "queue testing triggered" ∈ (triggerPhase q testRunners).queue.status.conditions ∧
      (triggerPhase q testRunners).persisted = true) := by
  constructor
  · intro h
    unfold triggerPhase
    rw [triggerLoop_skips_when_triggered q h testRunners]
    simp [h]
  · intro h hall
    have h2 : (triggerLoop q testRunners).2 = TriggerOutcome.ok :=
      triggerLoop_ok_when_all_ok q h testRunners hall
    unfold triggerPhase
    rcases hp : triggerLoop q testRunners with ⟨calls, o⟩
    rw [hp] at h2
    have h3 : o = TriggerOutcome.ok := h2
    subst h3
    simp only [h, Bool.false_eq_true, if_false]
    exact ⟨mem_setCondition q.status.conditions _ _ _, trivial⟩

/-- C6 witness: an untriggered item with one succeeding runner ends the phase
with the condition set and persisted. -/
theorem testTriggered_guard_witness :
    QueueCondition.mk QueueConditionType.queueTestTriggered ConditionStatus.conditionTrue
        "queue testing triggered" ∈
      (triggerPhase
        ⟨"redis", "ns", QueueType.upgrade, false,
          ⟨QueueState.testing, 1, [], some 0, "", ""⟩⟩
        [some ⟨"teamcity", true⟩]).queue.status.conditions ∧
    (triggerPhase
      ⟨"redis", "ns", QueueType.upgrade, false,
        ⟨QueueState.testing, 1, [], some 0, "", ""⟩⟩
      [some ⟨"teamcity", true⟩]).persisted = true :=
  (testTriggered_guard
    ⟨"redis", "ns", QueueType.upgrade, false,
      ⟨QueueState.testing, 1, [], some 0, "", ""⟩⟩
    [some ⟨"teamcity", true⟩]).2 rfl
    (by
      intro r hr
      rw [List.mem_singleton] at hr
      exact ⟨⟨"teamcity", true⟩, hr, rfl⟩)

/-- C9 counterexample: the mock runner finishing with a pass sets no
per-runner result condition at all — `setTestResultCondition` returns the
queue unchanged without persisting. -/
theorem mock_runner_gets_no_condition :
    setTestResultCondition
        ⟨"redis", "ns", QueueType.upgrade, false,
          ⟨QueueState.testing, 1, [], some 0, "", ""⟩⟩
        testmockTestRunnerName testResultSuccess =
      (⟨"redis", "ns", QueueType.upgrade, false,
          ⟨QueueState.testing, 1, [], some 0, "", ""⟩⟩, false) := by
  decide

/-- C9 amended: a per-runner result condition is set (and the item persisted)
only for the gitlab and teamcity runners — `QueueGitlabTestResult` resp.
`QueueTeamcityTestResult`, status True on pass and False on fail; for every
other runner name, the mock runner included, nothing is set and nothing is
persisted. -/
theorem setTestResultCondition_characterization (q : Queue) (name result : String) :
    (name = gitlabTestRunnerName →
      (result = testResultSuccess →
        QueueCondition.mk QueueConditionType.queueGitlabTestResult
            ConditionStatus.conditionTrue "queue testing succeeded" ∈
          (setTestResultCondition q name result).1.status.conditions) ∧
      (result = testResultFailure →
        QueueCondition.mk QueueConditionType.queueGitlabTestResult
            ConditionStatus.conditionFalse "queue testing of failed" ∈
          (setTestResultCondition q name result).1.status.conditions) ∧
      (setTestResultCondition q name result).2 = true) ∧
    (name = teamcityTestRunnerName →
      (result = testResultSuccess →
        QueueCondition.mk QueueConditionType.queueTeamcityTestResult
            ConditionStatus.conditionTrue "queue testing succeeded" ∈
          (setTestResultCondition q name result).1.status.conditions) ∧
      (result = testResultFailure →
        QueueCondition.mk QueueConditionType.queueTeamcityTestResult
            ConditionStatus.conditionFalse "queue testing of failed" ∈
          (setTestResultCondition q name result).1.status.conditions) ∧
      (setTestResultCondition q name result).2 = true) ∧
    (name ≠ gitlabTestRunnerName → name ≠ teamcityTestRunnerName →
      setTestResultCondition q name result = (q, false)) := by
  refine ⟨?_, ?_, ?_⟩
  · intro hg
    subst hg
    refine ⟨?_, ?_, rfl⟩
    · intro hr
      subst hr
      exact mem_setCondition q.status.conditions _ _ _
    · intro hr
      subst hr
      exact mem_setCondition q.status.conditions _ _ _
  · intro ht
    subst ht
    refine ⟨?_, ?_, rfl⟩
    · intro hr
      subst hr
      exact mem_setCondition q.status.conditions _ _ _
    · intro hr
      subst hr
      exact mem_setCondition q.status.conditions _ _ _
  · intro h1 h2
    simp [setTestResultCondition, h1, h2]

/-- C9 amended witness: a concrete gitlab pass appends the gitlab result
condition with status True. -/
theorem setTestResultCondition_characterization_witness :
    QueueCondition.mk QueueConditionType.queueGitlabTestResult
        ConditionStatus.conditionTrue "queue testing succeeded" ∈
      (setTestResultCondition
          ⟨"redis", "ns", QueueType.upgrade, false,
            ⟨QueueState.testing, 1, [], some 0, "", ""⟩⟩
          gitlabTestRunnerName testResultSuccess).1.status.conditions :=
  ((setTestResultCondition_characterization
      ⟨"redis", "ns", QueueType.upgrade, false,
        ⟨QueueState.testing, 1, [], some 0, "", ""⟩⟩
      gitlabTestRunnerName testResultSuccess).1 rfl).1 rfl

/-- Helper: under a present test configuration (skip not requested), the
runner list returned by `checkTestConfig` is exactly the `enabledRunners`
list, in all three inner branches. -/
theorem checkTestConfig_testRunners (registry : String → Option TestRunner)
    (cfg : TestConfig) (now : Int) (q : Queue) (hskip : q.skipTestRunner = false) :
    (checkTestConfig registry (some cfg) now q).testRunners =
      enabledRunners registry cfg := by
  simp only [checkTestConfig, hskip, Bool.false_eq_true, if_false]
  by_cases he : (enabledRunners registry cfg).isEmpty = true
  · rw [if_pos he]
  · rw [if_neg he]
    cases q.status.startTestingTime <;> rfl

/-- Helper: the "test runner not found" error is produced exactly when the
`enabledRunners` list is empty. -/
theorem checkTestConfig_error_iff (registry : String → Option TestRunner)
    (cfg : TestConfig) (now : Int) (q : Queue) (hskip : q.skipTestRunner = false) :
    ((checkTestConfig registry (some cfg) now q).error =
        some StagingError.ErrTestRunnerNotFound) ↔
      (enabledRunners registry cfg).isEmpty = true := by
  simp only [checkTestConfig, hskip, Bool.false_eq_true, if_false]
  by_cases he : (enabledRunners registry cfg).isEmpty = true
  · rw [if_pos he]
    simp [he]
  · rw [if_neg he]
    cases q.status.startTestingTime <;> simp [he]

/-- Helper: `enabledRunners` is empty exactly when no runner subconfig is
present in the test configuration. -/
theorem enabledRunners_isEmpty_iff (registry : String → Option TestRunner)
    (cfg : TestConfig) :
    (enabledRunners registry cfg).isEmpty = true ↔
      cfg.teamcity = false ∧ cfg.gitlab = false ∧ cfg.testMock = false := by
  rcases cfg with ⟨t, p, tc, gl, tm⟩
  cases tc <;> cases gl <;> cases tm <;> simp [enabledRunners]

/-- C10: when the test configuration names a runner whose stable name is
absent from the runner registry (such as teamcity with no credentials at
construction), `checkTestConfig` still returns a non-empty runner list
containing the nil entry rather than taking the "test runner not found"
branch, and `triggerTest` on that nil entry (while `QueueTestTriggered` is
not yet True) dereferences nil; the "test runner not found" error is
returned exactly when the test configuration exists but names no runner at
all. -/
theorem nil_runner_deref (registry : String → Option TestRunner) (cfg : TestConfig)
    (now : Int) (q : Queue) (hskip : q.skipTestRunner = false) :
    (cfg.teamcity = true → registry teamcityTestRunnerName = none →
      (checkTestConfig registry (some cfg) now q).testRunners ≠ [] ∧
      none ∈ (checkTestConfig registry (some cfg) now q).testRunners ∧
      (checkTestConfig registry (some cfg) now q).error ≠
        some StagingError.ErrTestRunnerNotFound ∧
      (isConditionTrue q.status.conditions QueueConditionType.queueTestTriggered = false →
        triggerTest q none = TriggerOutcome.nilPanic)) ∧
    (cfg.gitlab = true → registry gitlabTestRunnerName = none →
      none ∈ (checkTestConfig registry (some cfg) now q).testRunners) ∧
    ((checkTestConfig registry (some cfg) now q).error =
        some StagingError.ErrTestRunnerNotFound ↔
      cfg.teamcity = false ∧ cfg.gitlab = false ∧ cfg.testMock = false) := by
  refine ⟨?_, ?_, ?_⟩
  · intro htc hreg
    have hmem : none ∈ enabledRunners registry cfg := by
      unfold enabledRunners
      rw [htc, hreg]
      simp
    rw [checkTestConfig_testRunners registry cfg now q hskip]
    refine ⟨List.ne_nil_of_mem hmem, hmem, ?_, ?_⟩
    · rw [Ne, checkTestConfig_error_iff registry cfg now q hskip,
        enabledRunners_isEmpty_iff registry cfg]
      intro hall
      rw [htc] at hall
      cases hall.1
    · intro hcond
      simp [triggerTest, hcond]
  · intro hgl hreg
    have hmem : none ∈ enabledRunners registry cfg := by
      unfold enabledRunners
      rw [hgl, hreg]
      simp
    rw [checkTestConfig_testRunners registry cfg now q hskip]
    exact hmem
  · rw [checkTestConfig_error_iff registry cfg now q hskip]
    exact enabledRunners_isEmpty_iff registry cfg

/-- C10 witness: with no teamcity credentials at construction and a
teamcity-only test configuration, the runner list contains the nil entry and
triggering it panics. -/
theorem nil_runner_deref_witness :
    none ∈ (checkTestConfig
        (runnerRegistry (loadTestRunners "" "" "" "" fun _ => true))
        (some ⟨0, 0, true, false, false⟩) 0
        ⟨"redis", "ns", QueueType.upgrade, false,
          ⟨QueueState.testing, 1, [], none, "", ""⟩⟩).testRunners ∧
    triggerTest
        ⟨"redis", "ns", QueueType.upgrade, false,
          ⟨QueueState.testing, 1, [], none, "", ""⟩⟩
        none = TriggerOutcome.nilPanic :=
  have h := nil_runner_deref
    (runnerRegistry (loadTestRunners "" "" "" "" fun _ => true))
    ⟨0, 0, true, false, false⟩ 0
    ⟨"redis", "ns", QueueType.upgrade, false,
      ⟨QueueState.testing, 1, [], none, "", ""⟩⟩ rfl
  ⟨(h.1 rfl (by decide)).2.1, (h.1 rfl (by decide)).2.2.2 rfl⟩

end Samsahai
